import Mathlib

/-!
A verification development for the quickVibe repository: a shallow
embedding of the credential resolver (internal/auth), the git worktree
lifecycle (internal/devcontainer/git.go), instance discovery and status
polling (internal/devcontainer/tmux_ops.go and docker ops), and the TUI
state machine core (internal/tui), together with theorems settling the
specification claims.

External effects (filesystem, git, docker, tmux, environment) are
modelled as explicit "world" records of pure functions; each Go function
that performs I/O becomes a Lean function over such a world.  Go maps
are modelled as association lists where insertion prepends and lookup
finds the most recent binding (Go's overwrite semantics for lookup).
-/

namespace QuickVibe

/-! ## Path primitives

Models of Go `path/filepath` (Unix rules), used by the source via
`filepath.Join`, `filepath.Base`, `filepath.Dir`.  `pathClean` follows
the documented algorithm of `path.Clean`: drop empty and `.` elements,
resolve inner `..`, drop `..` at a rooted start. -/

/-- Split a character list on a separator character.  Always returns a
non-empty list of segments (`strings.Split` semantics). -/
def splitChar (sep : Char) : List Char → List (List Char)
  | [] => [[]]
  | c :: rest =>
    match splitChar sep rest with
    | s :: ss => if c = sep then [] :: s :: ss else (c :: s) :: ss
    | [] => [[c]]

/-- Join segments with `/` separators (inverse of `splitChar '/'`). -/
def joinSlash : List (List Char) → List Char
  | [] => []
  | [s] => s
  | s :: rest => s ++ '/' :: joinSlash rest

/-- One step of `path.Clean`'s element processing: `..` pops the last
output element (kept literally at the start of a relative path, dropped
at the root of an absolute one); other elements are appended. -/
def cleanStep (rooted : Bool) (acc : List (List Char)) (seg : List Char) :
    List (List Char) :=
  if seg = ['.', '.'] then
    if rooted then acc.dropLast
    else
      match acc.getLast? with
      | some l => if l = ['.', '.'] then acc ++ [seg] else acc.dropLast
      | none => [seg]
  else acc ++ [seg]

/-- Model of Go `path.Clean` (Unix): shortest lexically-equivalent path. -/
def pathClean (p : String) : String :=
  let l := p.toList
  if l = [] then "."
  else
    let rooted := l.head? = some '/'
    let segs := (splitChar '/' l).filter fun s => s ≠ [] ∧ s ≠ ['.']
    let out := segs.foldl (cleanStep rooted) []
    if rooted then
      if out = [] then "/" else String.mk ('/' :: joinSlash out)
    else
      if out = [] then "." else String.mk (joinSlash out)

/-- Model of Go `filepath.Base`: last element after stripping trailing
slashes; `"."` for the empty path, `"/"` for an all-slash path. -/
def pathBase (p : String) : String :=
  let l := p.toList
  if l = [] then "."
  else
    let stripped := (l.reverse.dropWhile (· = '/')).reverse
    if stripped = [] then "/"
    else String.mk (stripped.reverse.takeWhile (· ≠ '/')).reverse

/-- Model of Go `filepath.Dir`: everything up to (and including) the
final slash, cleaned; `"."` when the path contains no slash. -/
def pathDir (p : String) : String :=
  pathClean (String.mk ((p.toList.reverse.dropWhile (· ≠ '/')).reverse))

/-- Model of Go `filepath.Join`: skip leading empty elements, join the
rest with `/`, and clean; all-empty input yields `""`. -/
def pathJoinMany (elems : List String) : String :=
  match elems.dropWhile (fun e => e = "") with
  | [] => ""
  | rest => pathClean (String.mk (joinSlash (rest.map String.toList)))

/-- Two-argument `filepath.Join`. -/
def pathJoin (a b : String) : String := pathJoinMany [a, b]

/-- Model of Go `strings.HasPrefix`. -/
def strStartsWith (s pre : String) : Bool :=
  pre.toList.isPrefixOf s.toList

/-- Model of Go `strings.HasSuffix`. -/
def strEndsWith (s suf : String) : Bool :=
  suf.toList.isSuffixOf s.toList

/-- Whitespace recognised by the model of `strings.TrimSpace`. -/
def isSpaceChar (c : Char) : Bool :=
  c = ' ' ∨ c = '\t' ∨ c = '\n' ∨ c = '\r'

/-- Model of Go `strings.TrimSpace` (ASCII whitespace). -/
def strTrim (s : String) : String :=
  String.mk (((s.toList.dropWhile isSpaceChar).reverse.dropWhile
    isSpaceChar).reverse)

/-- Drop the first `n` characters (used to model `strings.TrimPrefix`
at call sites guarded by a `strings.HasPrefix` check). -/
def strDropN (s : String) (n : Nat) : String := String.mk (s.toList.drop n)

/-- Take the first `n` characters (Go slice `s[:n]` on ASCII data). -/
def strTakeN (s : String) (n : Nat) : String := String.mk (s.toList.take n)

/-- `strings.ReplaceAll(s, "/", "-")` for the single-character pattern
used by `CreateWorktree`. -/
def replaceSlashDash (s : String) : String :=
  String.mk (s.toList.map fun c => if c = '/' then '-' else c)

/-- Model of `strings.Contains(s, "..")`: two consecutive dots occur. -/
def containsDotDot : List Char → Bool
  | [] => false
  | [_] => false
  | a :: b :: rest => (a = '.' ∧ b = '.') ∨ containsDotDot (b :: rest)

/-! ## Go-map model

Go `map[string]V` is modelled as an association list: assignment
prepends (so lookup, which finds the first binding, sees the latest
write), the empty map is `[]`. -/

/-- Lookup in the association-list model of a Go map. -/
def mapLookup (m : List (String × String)) (k : String) : Option String :=
  m.lookup k

/-- `true` when the key is present in the map model. -/
def mapHas (m : List (String × String)) (k : String) : Bool :=
  (m.lookup k).isSome

/-! ## internal/auth

Types from `internal/auth` (`Credential`, `ProjectAuth`, `Config`) and
the resolver from `resolver.go`.  `SourceType` is a string type in Go,
so it is modelled as `String` with the three named constants.  The
external effects used by the three source resolvers are gathered in
`AuthEnv`. -/

/-- `auth.SourceFile`. -/
def SourceFile : String := "file"

/-- `auth.SourceEnv`. -/
def SourceEnv : String := "env"

/-- `auth.SourceCommand`. -/
def SourceCommand : String := "command"

/-- `auth.Credential`: a named credential with a source kind and a
source-dependent value (path / variable name / command line). -/
structure Credential where
  Name : String
  Source : String
  Value : String
deriving DecidableEq, Repr

/-- `auth.ProjectAuth`: per-project credential override list. -/
structure ProjectAuth where
  Credentials : List Credential
  LaunchCommand : String
deriving Repr

/-- `auth.Config`: global credentials plus per-project overrides.  The
Go `map[string]ProjectAuth` becomes an association list. -/
structure AuthConfig where
  Credentials : List Credential
  Projects : List (String × ProjectAuth)
deriving Repr

/-- World for the credential resolver: `os.LookupEnv`, `os.ReadFile`
(composed with `util.ExpandPath`, whose home directory is part of the
world), and `sh -c` command execution. -/
structure AuthEnv where
  lookupEnv : String → Option String
  readFile : String → Except String String
  runCommand : String → Except String String
  homeDir : String

/-- `util.ExpandPath`: expand a leading `~` to the home directory. -/
def ExpandPath (env : AuthEnv) (path : String) : String :=
  match path.toList with
  | [] => path
  | c :: rest => if c = '~' then pathJoin env.homeDir (String.mk rest) else path

/-- `auth.resolveFileSource`: read and trim the file at the expanded
path; a read failure is a resolution error. -/
def resolveFileSource (env : AuthEnv) (path : String) : Except String String :=
  match env.readFile (ExpandPath env path) with
  | .error e => .error ("failed to read credential file " ++ path ++ ": " ++ e)
  | .ok data => .ok (strTrim data)

/-- `auth.resolveEnvSource`: the variable must be *set*; its value (even
empty) is returned as-is. -/
def resolveEnvSource (env : AuthEnv) (name : String) : Except String String :=
  match env.lookupEnv name with
  | none => .error ("environment variable " ++ name ++ " is not set")
  | some value => .ok value

/-- `auth.resolveCommandSource`: run the command, trim its stdout. -/
def resolveCommandSource (env : AuthEnv) (command : String) :
    Except String String :=
  match env.runCommand command with
  | .error e => .error ("failed to run credential command: " ++ e)
  | .ok output => .ok (strTrim output)

/-- `auth.resolveCredential`: dispatch on the source kind. -/
def resolveCredential (env : AuthEnv) (cred : Credential) :
    Except String String :=
  if cred.Source = SourceFile then resolveFileSource env cred.Value
  else if cred.Source = SourceEnv then resolveEnvSource env cred.Value
  else if cred.Source = SourceCommand then resolveCommandSource env cred.Value
  else .error ("unknown source type: " ++ cred.Source)

/-- `auth.ResolveResult`: resolved values and per-credential errors,
both Go maps keyed by credential name. -/
structure ResolveResult where
  Credentials : List (String × String)
  Errors : List (String × String)
deriving DecidableEq, Repr

/-- The credential list `Resolve` iterates over: the project override
when present and non-empty, else the global list. -/
def selectedCredentials (cfg : AuthConfig) (projectName : String) :
    List Credential :=
  match cfg.Projects.lookup projectName with
  | some proj =>
    if proj.Credentials.length > 0 then proj.Credentials else cfg.Credentials
  | none => cfg.Credentials

/-- The loop body of `Config.Resolve`: an error is recorded under the
credential's name; a non-empty value is recorded in `Credentials`; an
empty resolved value is recorded nowhere. -/
def resolveStep (env : AuthEnv) (result : ResolveResult) (cred : Credential) :
    ResolveResult :=
  match resolveCredential env cred with
  | .error e => { result with Errors := (cred.Name, e) :: result.Errors }
  | .ok value =>
    if value ≠ "" then
      { result with Credentials := (cred.Name, value) :: result.Credentials }
    else result

/-- `auth.Config.Resolve`: `none` models the nil receiver, which
returns the freshly-made empty maps immediately. -/
def Resolve (c : Option AuthConfig) (env : AuthEnv) (projectName : String) :
    ResolveResult :=
  match c with
  | none => { Credentials := [], Errors := [] }
  | some cfg =>
    (selectedCredentials cfg projectName).foldl (resolveStep env)
      { Credentials := [], Errors := [] }

/-- The environment-variable names ultimately set downstream for a
resolve result: `startContainer` writes exactly the entries of
`result.Credentials` to the credential file (`auth.WriteCredentialFile`)
and `injectTmuxSessionEnv` runs `tmux setenv` for exactly the entries
read back from that file. -/
def credentialEnvNames (r : ResolveResult) : List String :=
  r.Credentials.map Prod.fst

/-! ### Lemmas about the resolve loop -/

/-- Pair-list lookup is `none` iff no entry carries the key. -/
theorem lookup_eq_none_iff (m : List (String × String)) (k : String) :
    m.lookup k = none ↔ ∀ p ∈ m, p.1 ≠ k := by
  induction m with
  | nil => simp
  | cons hd tl ih =>
    rcases hd with ⟨a, b⟩
    by_cases h : k = a
    · subst h
      constructor
      · intro hnone
        simp [List.lookup] at hnone
      · intro hall
        exact absurd rfl (hall (k, b) (List.mem_cons_self _ _))
    · have hba : (k == a) = false := by simpa using h
      simp only [List.lookup, hba]
      rw [ih]
      constructor
      · intro hall p hp
        rcases List.mem_cons.mp hp with rfl | hp'
        · exact fun hc => h hc.symm
        · exact hall p hp'
      · intro hall p hp
        exact hall p (List.mem_cons_of_mem _ hp)

/-- A step of the loop never removes an existing `Errors` binding. -/
theorem resolveStep_errors_mono (env : AuthEnv) (r : ResolveResult)
    (c : Credential) (n : String) (h : (r.Errors.lookup n).isSome) :
    (((resolveStep env r c).Errors).lookup n).isSome := by
  unfold resolveStep
  cases hres : resolveCredential env c with
  | error e =>
    simp only [List.lookup]
    by_cases hn : n = c.Name
    · simp [hn]
    · have : (n == c.Name) = false := by simpa using hn
      simpa [this] using h
  | ok v =>
    by_cases hv : v = "" <;> simp [hv, h]

/-- A step of the loop never removes an existing `Credentials` binding. -/
theorem resolveStep_creds_mono (env : AuthEnv) (r : ResolveResult)
    (c : Credential) (n : String) (h : (r.Credentials.lookup n).isSome) :
    (((resolveStep env r c).Credentials).lookup n).isSome := by
  unfold resolveStep
  cases hres : resolveCredential env c with
  | error e => simpa using h
  | ok v =>
    by_cases hv : v = ""
    · simpa [hv] using h
    · simp only [hv, ne_eq, not_false_eq_true, if_true, List.lookup]
      by_cases hn : n = c.Name
      · simp [hn]
      · have : (n == c.Name) = false := by simpa using hn
        simpa [this] using h

/-- The whole loop never removes an existing `Errors` binding. -/
theorem resolveLoop_errors_mono (env : AuthEnv) (creds : List Credential)
    (r : ResolveResult) (n : String) (h : (r.Errors.lookup n).isSome) :
    (((creds.foldl (resolveStep env) r).Errors).lookup n).isSome := by
  induction creds generalizing r with
  | nil => simpa using h
  | cons hd tl ih =>
    exact ih (resolveStep env r hd) (resolveStep_errors_mono env r hd n h)

/-- The whole loop never removes an existing `Credentials` binding. -/
theorem resolveLoop_creds_mono (env : AuthEnv) (creds : List Credential)
    (r : ResolveResult) (n : String) (h : (r.Credentials.lookup n).isSome) :
    (((creds.foldl (resolveStep env) r).Credentials).lookup n).isSome := by
  induction creds generalizing r with
  | nil => simpa using h
  | cons hd tl ih =>
    exact ih (resolveStep env r hd) (resolveStep_creds_mono env r hd n h)

/-- A credential that errors ends with its name bound in `Errors`. -/
theorem resolveLoop_errors_of_mem (env : AuthEnv) (creds : List Credential)
    (r : ResolveResult) (cred : Credential) (e : String)
    (hmem : cred ∈ creds) (hres : resolveCredential env cred = .error e) :
    (((creds.foldl (resolveStep env) r).Errors).lookup cred.Name).isSome := by
  induction creds generalizing r with
  | nil => cases hmem
  | cons hd tl ih =>
    rw [List.foldl_cons]
    rcases List.mem_cons.mp hmem with heq | htl
    · subst heq
      apply resolveLoop_errors_mono
      unfold resolveStep
      rw [hres]
      simp [List.lookup]
    · exact ih (resolveStep env r hd) htl

/-- A credential that resolves to a non-empty value ends with its name
bound in `Credentials`. -/
theorem resolveLoop_creds_of_mem (env : AuthEnv) (creds : List Credential)
    (r : ResolveResult) (cred : Credential) (v : String)
    (hmem : cred ∈ creds) (hres : resolveCredential env cred = .ok v)
    (hv : v ≠ "") :
    (((creds.foldl (resolveStep env) r).Credentials).lookup cred.Name).isSome := by
  induction creds generalizing r with
  | nil => cases hmem
  | cons hd tl ih =>
    rw [List.foldl_cons]
    rcases List.mem_cons.mp hmem with heq | htl
    · subst heq
      apply resolveLoop_creds_mono
      unfold resolveStep
      rw [hres]
      simp [hv, List.lookup]
    · exact ih (resolveStep env r hd) htl

/-- If no credential named `n` in the list resolves to a non-empty
value, the loop leaves the `Credentials` binding of `n` unchanged. -/
theorem resolveLoop_creds_of_no_insert (env : AuthEnv)
    (creds : List Credential) (r : ResolveResult) (n : String)
    (h : ∀ c ∈ creds, c.Name = n →
      ∀ v, resolveCredential env c = .ok v → v = "") :
    ((creds.foldl (resolveStep env) r).Credentials).lookup n =
      r.Credentials.lookup n := by
  induction creds generalizing r with
  | nil => rfl
  | cons hd tl ih =>
    rw [List.foldl_cons, ih (resolveStep env r hd)
      (fun c hc => h c (List.mem_cons_of_mem hd hc))]
    unfold resolveStep
    cases hres : resolveCredential env hd with
    | error e => rfl
    | ok v =>
      by_cases hv : v = ""
      · simp [hv]
      · simp only [hv, ne_eq, not_false_eq_true, if_true, List.lookup]
        by_cases hn : n = hd.Name
        · exact absurd (h hd (List.mem_cons_self hd tl) hn.symm v hres) hv
        · have : (n == hd.Name) = false := by simpa using hn
          simp [this]

/-- If no credential named `n` in the list errors, the loop leaves the
`Errors` binding of `n` unchanged. -/
theorem resolveLoop_errors_of_no_insert (env : AuthEnv)
    (creds : List Credential) (r : ResolveResult) (n : String)
    (h : ∀ c ∈ creds, c.Name = n →
      ∀ e, resolveCredential env c ≠ .error e) :
    ((creds.foldl (resolveStep env) r).Errors).lookup n =
      r.Errors.lookup n := by
  induction creds generalizing r with
  | nil => rfl
  | cons hd tl ih =>
    rw [List.foldl_cons, ih (resolveStep env r hd)
      (fun c hc => h c (List.mem_cons_of_mem hd hc))]
    unfold resolveStep
    cases hres : resolveCredential env hd with
    | error e =>
      by_cases hn : n = hd.Name
      · exact absurd hres (h hd (List.mem_cons_self hd tl) hn.symm e)
      · have : (n == hd.Name) = false := by simpa using hn
        simp [List.lookup, this]
    | ok v =>
      by_cases hv : v = "" <;> simp [hv]

/-- Unfolding `Resolve` on a non-nil config. -/
theorem resolve_some (cfg : AuthConfig) (env : AuthEnv) (p : String) :
    Resolve (some cfg) env p =
      (selectedCredentials cfg p).foldl (resolveStep env)
        { Credentials := [], Errors := [] } := rfl

/-! ### Concrete worlds used by witnesses and counterexamples -/

/-- Environment where `VAR` is set to the empty string and every other
source fails. -/
def envEmptyVar : AuthEnv :=
  { lookupEnv := fun n => if n = "VAR" then some "" else none
  , readFile := fun _ => .error "no such file"
  , runCommand := fun _ => .error "command failed"
  , homeDir := "/home/u" }

/-- Environment where no variable at all is set. -/
def envNothingSet : AuthEnv :=
  { lookupEnv := fun _ => none
  , readFile := fun _ => .error "no such file"
  , runCommand := fun _ => .error "command failed"
  , homeDir := "/home/u" }

/-- One env-sourced credential reading `VAR`, named `TOKEN`. -/
def cfgEnvToken : AuthConfig :=
  { Credentials := [{ Name := "TOKEN", Source := "env", Value := "VAR" }]
  , Projects := [] }

/-- One env-sourced credential reading `VAR`, named `TOKEN2`. -/
def cfgEnvToken2 : AuthConfig :=
  { Credentials := [{ Name := "TOKEN2", Source := "env", Value := "VAR" }]
  , Projects := [] }

/-! ### Claim theorems for the credential resolver -/

/-- C1 counterexample: with `VAR` set but empty, the requested
credential `TOKEN` resolves successfully to the empty string and its
name appears in neither `Credentials` nor `Errors`, refuting "never
neither". -/
theorem c1_counterexample :
    "TOKEN" ∈ (selectedCredentials cfgEnvToken "p").map Credential.Name ∧
    ((Resolve (some cfgEnvToken) envEmptyVar "p").Credentials).lookup
      "TOKEN" = none ∧
    ((Resolve (some cfgEnvToken) envEmptyVar "p").Errors).lookup
      "TOKEN" = none := by
  decide

/-- C1 (amended): for distinct credential names, each requested
credential's fate is determined by its own resolution: an error puts
its name in `Errors` only, a non-empty value puts it in `Credentials`
only, and an empty resolved value leaves it in neither map. -/
theorem c1_resolve_partition (cfg : AuthConfig) (env : AuthEnv) (p : String)
    (cred : Credential) (hmem : cred ∈ selectedCredentials cfg p)
    (hnodup : ((selectedCredentials cfg p).map Credential.Name).Nodup) :
    (∀ e, resolveCredential env cred = .error e →
      (((Resolve (some cfg) env p).Errors).lookup cred.Name).isSome ∧
      ((Resolve (some cfg) env p).Credentials).lookup cred.Name = none) ∧
    (∀ v, resolveCredential env cred = .ok v → v ≠ "" →
      (((Resolve (some cfg) env p).Credentials).lookup cred.Name).isSome ∧
      ((Resolve (some cfg) env p).Errors).lookup cred.Name = none) ∧
    (resolveCredential env cred = .ok "" →
      ((Resolve (some cfg) env p).Credentials).lookup cred.Name = none ∧
      ((Resolve (some cfg) env p).Errors).lookup cred.Name = none) := by
  have huniq : ∀ c ∈ selectedCredentials cfg p, c.Name = cred.Name →
      c = cred := by
    intro c hc hn
    exact List.inj_on_of_nodup_map hnodup hc hmem hn
  rw [resolve_some]
  refine ⟨?_, ?_, ?_⟩
  · intro e hres
    constructor
    · exact resolveLoop_errors_of_mem env _ _ cred e hmem hres
    · have hnone := resolveLoop_creds_of_no_insert env
        (selectedCredentials cfg p) { Credentials := [], Errors := [] }
        cred.Name (by
          intro c hc hn v hv
          rw [huniq c hc hn, hres] at hv
          cases hv)
      simpa using hnone
  · intro v hres hv
    constructor
    · exact resolveLoop_creds_of_mem env _ _ cred v hmem hres hv
    · have hnone := resolveLoop_errors_of_no_insert env
        (selectedCredentials cfg p) { Credentials := [], Errors := [] }
        cred.Name (by
          intro c hc hn e he
          rw [huniq c hc hn, hres] at he
          cases he)
      simpa using hnone
  · intro hres
    constructor
    · have hnone := resolveLoop_creds_of_no_insert env
        (selectedCredentials cfg p) { Credentials := [], Errors := [] }
        cred.Name (by
          intro c hc hn v hv
          rw [huniq c hc hn, hres] at hv
          cases hv
          rfl)
      simpa using hnone
    · have hnone := resolveLoop_errors_of_no_insert env
        (selectedCredentials cfg p) { Credentials := [], Errors := [] }
        cred.Name (by
          intro c hc hn e he
          rw [huniq c hc hn, hres] at he
          cases he)
      simpa using hnone

/-- C1 witness: with no variable set, the single requested credential
errors and lands in `Errors` only. -/
theorem c1_resolve_partition_witness :
    (((Resolve (some cfgEnvToken) envNothingSet "p").Errors).lookup
      "TOKEN").isSome ∧
    ((Resolve (some cfgEnvToken) envNothingSet "p").Credentials).lookup
      "TOKEN" = none := by
  have h := c1_resolve_partition cfgEnvToken envNothingSet "p"
    { Name := "TOKEN", Source := "env", Value := "VAR" }
    (by decide) (by decide)
  exact h.1 "environment variable VAR is not set" rfl

/-- C2 counterexample: the credential `TOKEN2` resolves successfully to
the empty string, yet its name is *not* recorded in `Credentials`
(the loop only stores non-empty values). -/
theorem c2_counterexample :
    resolveCredential envEmptyVar
      { Name := "TOKEN2", Source := "env", Value := "VAR" } = .ok "" ∧
    ((Resolve (some cfgEnvToken2) envEmptyVar "p").Credentials).lookup
      "TOKEN2" = none :=
  ⟨rfl, by decide⟩

/-- C2 (amended): a requested credential that resolves to the empty
string is recorded in neither map, and in particular no environment
variable is ultimately set for it downstream (its name is absent from
the entries the credential file and `tmux setenv` propagate). -/
theorem c2_empty_resolution (cfg : AuthConfig) (env : AuthEnv) (p : String)
    (cred : Credential) (hmem : cred ∈ selectedCredentials cfg p)
    (hnodup : ((selectedCredentials cfg p).map Credential.Name).Nodup)
    (hres : resolveCredential env cred = .ok "") :
    ((Resolve (some cfg) env p).Credentials).lookup cred.Name = none ∧
    ((Resolve (some cfg) env p).Errors).lookup cred.Name = none ∧
    cred.Name ∉ credentialEnvNames (Resolve (some cfg) env p) := by
  have h := (c1_resolve_partition cfg env p cred hmem hnodup).2.2 hres
  refine ⟨h.1, h.2, ?_⟩
  intro hmemname
  rcases List.mem_map.mp hmemname with ⟨q, hq, hq1⟩
  exact (lookup_eq_none_iff _ _).mp h.1 q hq hq1

/-- C2 witness: concrete empty-string resolution lands nowhere and sets
no downstream environment variable. -/
theorem c2_empty_resolution_witness :
    ((Resolve (some cfgEnvToken2) envEmptyVar "p").Credentials).lookup
      "TOKEN2" = none ∧
    ((Resolve (some cfgEnvToken2) envEmptyVar "p").Errors).lookup
      "TOKEN2" = none ∧
    "TOKEN2" ∉ credentialEnvNames (Resolve (some cfgEnvToken2)
      envEmptyVar "p") :=
  c2_empty_resolution cfgEnvToken2 envEmptyVar "p"
    { Name := "TOKEN2", Source := "env", Value := "VAR" }
    (by decide) (by decide) rfl

/-- C8: resolving an env-sourced credential errors exactly when the
variable is unset; a set variable resolves to its value, so a
set-but-empty variable resolves to the empty string rather than
erroring. -/
theorem c8_env_source (env : AuthEnv) (name : String) :
    ((∃ e, resolveEnvSource env name = .error e) ↔
      env.lookupEnv name = none) ∧
    (∀ v, env.lookupEnv name = some v →
      resolveEnvSource env name = .ok v) := by
  cases h : env.lookupEnv name with
  | none => simp [resolveEnvSource, h]
  | some v => simp [resolveEnvSource, h]

/-- C8 witness: a variable set to the empty string resolves to `""`. -/
theorem c8_env_source_witness :
    resolveEnvSource envEmptyVar "VAR" = .ok "" :=
  (c8_env_source envEmptyVar "VAR").2 "" (by decide)

/-- C10: `Resolve` on the nil receiver returns fresh empty maps for any
project name and environment (no failure, both maps empty). -/
theorem c10_nil_config_resolve (env : AuthEnv) (p : String) :
    Resolve none env p = { Credentials := [], Errors := [] } := rfl

/-! ## internal/constants -/

/-- `constants.ReservedBranchNames`. -/
def ReservedBranchNames : List String := ["main", "master"]

/-- `constants.IsReservedBranchName`. -/
def IsReservedBranchName (name : String) : Bool :=
  ReservedBranchNames.contains name

/-- `constants.SHATruncateLength`. -/
def SHATruncateLength : Nat := 7

/-- `constants.DefaultBranchUnknown`. -/
def DefaultBranchUnknown : String := "unknown"

/-! ## internal/devcontainer types -/

/-- `devcontainer.WorktreeInfo`. -/
structure WorktreeInfo where
  Path : String
  Branch : String
  MainRepo : String
  GitDir : String
  IsMain : Bool
deriving DecidableEq, Repr

/-- `devcontainer.newMainWorktreeInfo`. -/
def newMainWorktreeInfo (path branch : String) : WorktreeInfo :=
  { Path := path, Branch := branch, MainRepo := path
  , GitDir := pathJoin path ".git", IsMain := true }

/-- `devcontainer.newBranchWorktreeInfo`. -/
def newBranchWorktreeInfo (path branch mainRepo : String) : WorktreeInfo :=
  { Path := path, Branch := branch, MainRepo := mainRepo
  , GitDir := pathJoinMany [mainRepo, ".git", "worktrees", pathBase path]
  , IsMain := false }

/-- `devcontainer.Project`. -/
structure Project where
  Name : String
  Path : String
deriving DecidableEq, Repr

/-- `devcontainer.ContainerStatus` is a string type in Go. -/
abbrev ContainerStatus := String

/-- `devcontainer.StatusRunning`. -/
def StatusRunning : ContainerStatus := "running"

/-- `devcontainer.StatusStopped`. -/
def StatusStopped : ContainerStatus := "stopped"

/-- `devcontainer.StatusUnknown`. -/
def StatusUnknown : ContainerStatus := "unknown"

/-- `devcontainer.ContainerInstance` (the embedded `Project` is
flattened into the `Project` field; Go promotes its fields). -/
structure ContainerInstance where
  Project : Project
  ConfigPath : String
  Worktree : Option WorktreeInfo
deriving DecidableEq, Repr

/-- Promoted field access `instance.Path`. -/
def ContainerInstance.Path (c : ContainerInstance) : String := c.Project.Path

/-- Promoted field access `instance.Name`. -/
def ContainerInstance.Name (c : ContainerInstance) : String := c.Project.Name

/-- `devcontainer.ContainerInstanceWithStatus`. -/
structure ContainerInstanceWithStatus where
  ContainerInstance : ContainerInstance
  Status : ContainerStatus
  ContainerID : String
  SessionCount : Nat
deriving DecidableEq, Repr

/-! ## internal/devcontainer/git.go

World model `GitFS`: `stat` is `os.Stat` (the payload records whether
the entry is a directory), `readFile` is `os.ReadFile`, `gitBranch` is
the stdout of `git rev-parse --abbrev-ref HEAD`, `worktreeListOutput`
the stdout of `git worktree list --porcelain`, and the remaining fields
are the git worktree commands (`error` carries the stderr text).
`stopContainer` models `devcontainer.Stop`, whose result
`RemoveWorktree` ignores. -/

/-- Directory bit of an `os.Stat` result. -/
structure FileInfo where
  isDir : Bool
deriving DecidableEq, Repr

/-- World of external effects for the git worktree code. -/
structure GitFS where
  stat : String → Option FileInfo
  readFile : String → Except String String
  gitBranch : String → Except String String
  worktreeListOutput : String → Except String String
  worktreeAdd : String → String → String → Except String Unit
  worktreeRemove : String → String → Except String Unit
  worktreePrune : String → Except String Unit
  stopContainer : String → Except String Unit

/-- `devcontainer.getGitBranch`: trimmed `rev-parse` output, falling
back to the `unknown` sentinel on failure. -/
def getGitBranch (fs : GitFS) (repoPath : String) : String :=
  match fs.gitBranch repoPath with
  | .error _ => DefaultBranchUnknown
  | .ok output => strTrim output

/-- `devcontainer.IsGitWorktree`: a `.git` directory marks a main
worktree; a `.git` file holding `gitdir: <path>` marks a linked
worktree whose main repository is three directory levels above the
recorded gitdir (`.git/worktrees/<name>` → `.git` via two `Dir`
steps, then the `.git` directory's parent); anything else is not
git-managed. -/
def IsGitWorktree (fs : GitFS) (path : String) : Option WorktreeInfo :=
  let gitPath := pathJoin path ".git"
  match fs.stat gitPath with
  | none => none
  | some info =>
    if info.isDir then
      some (newMainWorktreeInfo path (getGitBranch fs path))
    else
      match fs.readFile gitPath with
      | .error _ => none
      | .ok content =>
        let line := strTrim content
        if strStartsWith line "gitdir: " then
          let gitDir := strDropN line 8
          let mainGitDir := pathDir (pathDir gitDir)
          let mainRepo := pathDir mainGitDir
          some { Path := path, Branch := getGitBranch fs path
               , MainRepo := mainRepo, GitDir := gitDir, IsMain := false }
        else none

/-- `devcontainer.GetMainRepo`. -/
def GetMainRepo (fs : GitFS) (worktreePath : String) : Except String String :=
  match IsGitWorktree fs worktreePath with
  | none => .error "not a git repository or worktree"
  | some info => .ok info.MainRepo

/-- Allowed branch-name characters: letters, digits, `-`, `_`, `/`. -/
def allowedBranchChar (r : Char) : Bool :=
  ('a' ≤ r ∧ r ≤ 'z') ∨ ('A' ≤ r ∧ r ≤ 'Z') ∨ ('0' ≤ r ∧ r ≤ '9') ∨
    r = '-' ∨ r = '_' ∨ r = '/'

/-- `devcontainer.ValidateBranchName`. -/
def ValidateBranchName (name : String) : Except String Unit :=
  if name = "" then .error "branch name cannot be empty"
  else if IsReservedBranchName name then
    .error ("'" ++ name ++ "' is a reserved branch name")
  else if strStartsWith name "-" then
    .error "branch name cannot start with '-'"
  else if strStartsWith name "." ∨ strEndsWith name "." then
    .error "branch name cannot start or end with '.'"
  else if containsDotDot name.toList then
    .error "branch name cannot contain '..'"
  else if name.toList.all allowedBranchChar then .ok ()
  else .error "branch name contains invalid character"

/-- The sibling worktree path `CreateWorktree` computes for a main
repository and a branch name. -/
def worktreeTargetPath (mainRepo branchName : String) : String :=
  pathJoin (pathDir mainRepo)
    (pathBase mainRepo ++ "-" ++ replaceSlashDash branchName)

/-- `devcontainer.CreateWorktree`: validate the branch, resolve the
main repository, compute the hyphenated sibling path, refuse an
existing path, and run `git worktree add -b`. -/
def CreateWorktree (fs : GitFS) (repoPath branchName : String) :
    Except String String :=
  match ValidateBranchName branchName with
  | .error e => .error e
  | .ok _ =>
    match IsGitWorktree fs repoPath with
    | none => .error "not a git repository"
    | some wtInfo =>
      let mainRepo := wtInfo.MainRepo
      let worktreePath := worktreeTargetPath mainRepo branchName
      if (fs.stat worktreePath).isSome then
        .error ("worktree directory already exists: " ++ worktreePath)
      else
        match fs.worktreeAdd mainRepo branchName worktreePath with
        | .error stderr => .error ("failed to create worktree: " ++ stderr)
        | .ok _ => .ok worktreePath

/-- The removal tail of `RemoveWorktree`: forced `git worktree remove`;
on failure a `git worktree prune` recovers, otherwise the original
stderr is surfaced. -/
def removeWorktreeFrom (fs : GitFS) (mainRepo worktreePath : String) :
    Except String Unit :=
  match fs.worktreeRemove mainRepo worktreePath with
  | .ok _ => .ok ()
  | .error stderr =>
    match fs.worktreePrune mainRepo with
    | .ok _ => .ok ()
    | .error _ => .error ("failed to remove worktree: " ++ stderr)

/-- `devcontainer.RemoveWorktree`: best-effort container stop (result
ignored), main-repo resolution from live metadata or the caller's hint
(Go's variadic argument becomes an `Option`), refusal to remove the
main worktree, then the forced-remove/prune tail. -/
def RemoveWorktree (fs : GitFS) (worktreePath : String)
    (mainRepoPath : Option String) : Except String Unit :=
  let _ := fs.stopContainer worktreePath
  match IsGitWorktree fs worktreePath with
  | some wtInfo =>
    if wtInfo.IsMain then .error "cannot remove the main worktree"
    else removeWorktreeFrom fs wtInfo.MainRepo worktreePath
  | none =>
    match mainRepoPath with
    | some hint =>
      if hint ≠ "" then removeWorktreeFrom fs hint worktreePath
      else .error "not a git worktree"
    | none => .error "not a git worktree"

/-! ## ListWorktrees: the porcelain parser -/

/-- The Go zero value of `WorktreeInfo`, used for the parse cursor. -/
def wtZero : WorktreeInfo :=
  { Path := "", Branch := "", MainRepo := "", GitDir := "", IsMain := false }

/-- Parser state for `git worktree list --porcelain` output. -/
structure WtParse where
  worktrees : List WorktreeInfo
  current : WorktreeInfo
  isFirst : Bool
deriving Repr

/-- The `appendWorktree` closure: finalize the current record (skipped
when no `worktree` line was seen); the first record becomes the main
worktree, later ones branch worktrees of `repoPath`. -/
def appendWorktree (repoPath : String) (st : WtParse) : WtParse :=
  if st.current.Path = "" then st
  else
    { st with
      worktrees := st.worktrees ++
        [if st.isFirst then
          newMainWorktreeInfo st.current.Path st.current.Branch
        else
          newBranchWorktreeInfo st.current.Path st.current.Branch repoPath]
      isFirst := false }

/-- One line of the porcelain listing: blank lines finalize a record;
`worktree`, `branch refs/heads/`, and `HEAD` lines fill the cursor,
with a detached `HEAD` supplying a 7-character truncated hash only
when no branch was recorded. -/
def wtParseLine (repoPath : String) (st : WtParse) (rawLine : List Char) :
    WtParse :=
  let line := strTrim (String.mk rawLine)
  if line = "" then { appendWorktree repoPath st with current := wtZero }
  else if strStartsWith line "worktree " then
    { st with current := { st.current with Path := strDropN line 9 } }
  else if strStartsWith line "branch refs/heads/" then
    { st with current := { st.current with Branch := strDropN line 18 } }
  else if strStartsWith line "HEAD " then
    if st.current.Branch = "" then
      let sha := strDropN line 5
      let b :=
        if sha.toList.length > SHATruncateLength then
          strTakeN sha SHATruncateLength
        else sha
      { st with current := { st.current with Branch := b } }
    else st
  else st

/-- `devcontainer.ListWorktrees`: run the porcelain listing and parse
it, finalizing a trailing record without a final newline. -/
def ListWorktrees (fs : GitFS) (repoPath : String) :
    Except String (List WorktreeInfo) :=
  match fs.worktreeListOutput repoPath with
  | .error e => .error ("failed to list worktrees: " ++ e)
  | .ok output =>
    let lines := splitChar '\n' output.toList
    let st := lines.foldl (wtParseLine repoPath)
      { worktrees := [], current := wtZero, isFirst := true }
    .ok (appendWorktree repoPath st).worktrees

/-! ## DiscoverInstances

`walkDevcontainerDirs` performs the filesystem traversal and invokes a
callback once per accepted `devcontainer.json`; the traversal itself
(roots, depth bound, exclusion set, hidden-directory pruning) is
abstracted as the resulting callback sequence `found` of
`(configPath, projectPath)` pairs — quantifying over all sequences
covers every combination of roots (including overlapping ones and a
root listed twice), depth bounds and exclusions. -/

/-- Accumulated discovery state: emitted instances plus the two `seen`
sets (main repositories processed, instance paths emitted). -/
structure DiscoverState where
  instances : List ContainerInstance
  seenProjects : List String
  seenWorktrees : List String
deriving Repr

/-- The per-worktree loop body inside `DiscoverInstances`: emit one
instance per unseen worktree path, named after the main repository and
sharing its config path. -/
def discoverWorktreeStep (mainRepo mainConfigPath : String)
    (s : DiscoverState) (wt : WorktreeInfo) : DiscoverState :=
  if wt.Path ∈ s.seenWorktrees then s
  else
    { s with
      seenWorktrees := wt.Path :: s.seenWorktrees
      instances := s.instances ++
        [{ Project := { Name := pathBase mainRepo, Path := wt.Path }
         , ConfigPath := mainConfigPath, Worktree := some wt }] }

/-- The preferred config path for a git project: the main repository's
`.devcontainer/devcontainer.json` when it exists, else the config file
the walk found. -/
def mainConfigFor (fs : GitFS) (mainRepo walkedConfig : String) : String :=
  if (fs.stat (pathJoinMany [mainRepo, ".devcontainer",
      "devcontainer.json"])).isSome then
    pathJoinMany [mainRepo, ".devcontainer", "devcontainer.json"]
  else walkedConfig

/-- The callback body of `DiscoverInstances` (`found` is the
`(configPath, projectPath)` pair): non-git projects are emitted
directly; a git project is resolved to its main repository (skipped if
already processed and always marked in `seenProjects`), the main
repository's config path is preferred, and every worktree from
`ListWorktrees` is emitted — with a listing failure degrading to just
the walked path. -/
def discoverStep (fs : GitFS) (st : DiscoverState)
    (found : String × String) : DiscoverState :=
  match IsGitWorktree fs found.2 with
  | none =>
    if found.2 ∈ st.seenWorktrees then st
    else
      { st with
        seenWorktrees := found.2 :: st.seenWorktrees
        instances := st.instances ++
          [{ Project := { Name := pathBase found.2, Path := found.2 }
           , ConfigPath := found.1, Worktree := none }] }
  | some wtInfo =>
    if wtInfo.MainRepo ∈ st.seenProjects then st
    else
      match ListWorktrees fs wtInfo.MainRepo with
      | .error _ =>
        if found.2 ∈ st.seenWorktrees then
          { st with seenProjects := wtInfo.MainRepo :: st.seenProjects }
        else
          { instances := st.instances ++
              [{ Project := { Name := pathBase found.2, Path := found.2 }
               , ConfigPath := mainConfigFor fs wtInfo.MainRepo found.1
               , Worktree := some wtInfo }]
          , seenProjects := wtInfo.MainRepo :: st.seenProjects
          , seenWorktrees := found.2 :: st.seenWorktrees }
      | .ok worktrees =>
        worktrees.foldl
          (discoverWorktreeStep wtInfo.MainRepo
            (mainConfigFor fs wtInfo.MainRepo found.1))
          { st with seenProjects := wtInfo.MainRepo :: st.seenProjects }

/-- `devcontainer.DiscoverInstances` over the abstracted callback
sequence. -/
def DiscoverInstances (fs : GitFS) (found : List (String × String)) :
    List ContainerInstance :=
  (found.foldl (discoverStep fs)
    { instances := [], seenProjects := [], seenWorktrees := [] }).instances

/-! ### Concrete git worlds for witnesses -/

/-- A world with a main repository at `/work/app` (on branch `main`,
with a `.devcontainer/devcontainer.json`) and one linked worktree at
`/work/app-f`, whose `.git` file records
`gitdir: /work/app/.git/worktrees/app-f`; `git worktree add` succeeds
and no other path exists. -/
def fsWorkApp : GitFS :=
  { stat := fun p =>
      if p = "/work/app/.git" then some { isDir := true }
      else if p = "/work/app/.devcontainer/devcontainer.json" then
        some { isDir := false }
      else if p = "/work/app-f/.git" then some { isDir := false }
      else none
  , readFile := fun p =>
      if p = "/work/app-f/.git" then
        .ok "gitdir: /work/app/.git/worktrees/app-f\n"
      else .error "no such file"
  , gitBranch := fun _ => .ok "main\n"
  , worktreeListOutput := fun p =>
      if p = "/work/app" then
        .ok ("worktree /work/app\nHEAD abc\nbranch refs/heads/main\n\n" ++
          "worktree /work/app-f\nHEAD def\nbranch refs/heads/f\n")
      else .error "unknown repo"
  , worktreeAdd := fun _ _ _ => .ok ()
  , worktreeRemove := fun _ _ => .ok ()
  , worktreePrune := fun _ => .error "prune failed"
  , stopContainer := fun _ => .error "not running" }

/-- The `WorktreeInfo` `IsGitWorktree` derives for the linked worktree
`/work/app-f` of `fsWorkApp`: three `Dir` steps from the recorded
gitdir land on the main repository `/work/app`. -/
def wtAppF : WorktreeInfo :=
  { Path := "/work/app-f", Branch := "main", MainRepo := "/work/app"
  , GitDir := "/work/app/.git/worktrees/app-f", IsMain := false }

/-- A world where the worktree directory has been deleted out-of-band:
`stat` finds nothing, yet the forced git removal (run from the hinted
main repository) succeeds. -/
def fsDeletedWorktree : GitFS :=
  { stat := fun _ => none
  , readFile := fun _ => .error "no such file"
  , gitBranch := fun _ => .error "not a repo"
  , worktreeListOutput := fun _ => .error "unknown repo"
  , worktreeAdd := fun _ _ _ => .error "add failed"
  , worktreeRemove := fun _ _ => .ok ()
  , worktreePrune := fun _ => .ok ()
  , stopContainer := fun _ => .error "not running" }

/-! ### Claim theorems for the worktree lifecycle -/

/-- Replacing slashes with hyphens leaves no slash behind. -/
theorem replaceSlashDash_no_slash (s : String) :
    '/' ∉ (replaceSlashDash s).toList := by
  intro h
  have h' : '/' ∈ s.toList.map (fun c => if c = '/' then '-' else c) := h
  rcases List.mem_map.mp h' with ⟨c, _, hc⟩
  by_cases hcs : c = '/' <;> simp [hcs] at hc

/-- C3: on a git instance whose main repository is `wt.MainRepo`, and a
valid branch name, `CreateWorktree` targets exactly the sibling path
`pathJoin (pathDir M) (pathBase M ++ "-" ++ branch-with-slashes-as-
hyphens)` (that is `worktreeTargetPath`, whose branch part contains no
separator), errors when that path already exists, and returns that
path when it is fresh and `git worktree add` succeeds. -/
theorem c3_create_worktree (fs : GitFS) (instPath branch : String)
    (wt : WorktreeInfo) (hwt : IsGitWorktree fs instPath = some wt)
    (hvalid : ValidateBranchName branch = .ok ()) :
    '/' ∉ (replaceSlashDash branch).toList ∧
    worktreeTargetPath wt.MainRepo branch =
      pathJoin (pathDir wt.MainRepo)
        (pathBase wt.MainRepo ++ "-" ++ replaceSlashDash branch) ∧
    ((fs.stat (worktreeTargetPath wt.MainRepo branch)).isSome →
      CreateWorktree fs instPath branch =
        .error ("worktree directory already exists: " ++
          worktreeTargetPath wt.MainRepo branch)) ∧
    ((fs.stat (worktreeTargetPath wt.MainRepo branch)).isSome = false →
      fs.worktreeAdd wt.MainRepo branch
        (worktreeTargetPath wt.MainRepo branch) = .ok () →
      CreateWorktree fs instPath branch =
        .ok (worktreeTargetPath wt.MainRepo branch)) := by
  refine ⟨replaceSlashDash_no_slash branch, rfl, ?_, ?_⟩
  · intro hstat
    unfold CreateWorktree
    rw [hvalid, hwt]
    simp [hstat]
  · intro hstat hadd
    unfold CreateWorktree
    rw [hvalid, hwt]
    simp [hstat, hadd]

/-- C3 witness: branch `feature/auth` yields the sibling path
`/work/app-feature-auth`, both when creating from the main repository
`/work/app` and when creating from its linked worktree `/work/app-f`
(whose main repository resolves to `/work/app`). -/
theorem c3_create_worktree_witness :
    worktreeTargetPath "/work/app" "feature/auth" =
      "/work/app-feature-auth" ∧
    CreateWorktree fsWorkApp "/work/app" "feature/auth" =
      .ok "/work/app-feature-auth" ∧
    CreateWorktree fsWorkApp "/work/app-f" "feature/auth" =
      .ok "/work/app-feature-auth" := by
  have h1 := (c3_create_worktree fsWorkApp "/work/app" "feature/auth"
    (newMainWorktreeInfo "/work/app" "main") rfl rfl).2.2.2
    (by decide) rfl
  have h2 := (c3_create_worktree fsWorkApp "/work/app-f" "feature/auth"
    wtAppF rfl rfl).2.2.2 (by decide) rfl
  refine ⟨by decide, ?_, ?_⟩
  · rw [h1]
    rfl
  · rw [h2]
    rfl

/-- C4: `RemoveWorktree` refuses to remove a path recognised as the
main worktree; when the directory is gone but a non-empty hint is
supplied, it proceeds from the hint and succeeds when the forced
removal does; and when the forced removal fails it falls back to
`git worktree prune`, surfacing the original stderr only when the
prune also fails. -/
theorem c4_remove_worktree (fs : GitFS) (p : String)
    (hint : Option String) :
    (∀ wt, IsGitWorktree fs p = some wt → wt.IsMain = true →
      RemoveWorktree fs p hint = .error "cannot remove the main worktree") ∧
    (∀ h, IsGitWorktree fs p = none → hint = some h → h ≠ "" →
      fs.worktreeRemove h p = .ok () →
      RemoveWorktree fs p hint = .ok ()) ∧
    (∀ wt e, IsGitWorktree fs p = some wt → wt.IsMain = false →
      fs.worktreeRemove wt.MainRepo p = .error e →
      RemoveWorktree fs p hint =
        (match fs.worktreePrune wt.MainRepo with
         | .ok _ => .ok ()
         | .error _ => .error ("failed to remove worktree: " ++ e))) := by
  refine ⟨?_, ?_, ?_⟩
  · intro wt hwt hmain
    unfold RemoveWorktree
    rw [hwt]
    simp [hmain]
  · intro h hwt hhint hne hrem
    subst hhint
    unfold RemoveWorktree removeWorktreeFrom
    rw [hwt]
    simp [hne, hrem]
  · intro wt e hwt hmain hrem
    unfold RemoveWorktree removeWorktreeFrom
    rw [hwt]
    simp [hmain, hrem]

/-- C4 witness: the worktree directory was deleted out-of-band, the
main-repo hint is supplied, and removal completes successfully without
the directory existing. -/
theorem c4_remove_worktree_witness :
    RemoveWorktree fsDeletedWorktree "/work/app-f" (some "/work/app") =
      .ok () :=
  (c4_remove_worktree fsDeletedWorktree "/work/app-f"
    (some "/work/app")).2.1 "/work/app" rfl rfl (by decide) rfl

/-! ### Discovery invariants -/

/-- Appending one fresh element keeps a list duplicate-free. -/
theorem nodup_append_single {α : Type} (l : List α) (a : α)
    (hl : l.Nodup) (ha : a ∉ l) : (l ++ [a]).Nodup := by
  rw [List.nodup_append]
  refine ⟨hl, List.nodup_singleton a, ?_⟩
  intro x hx hxa
  rw [List.mem_singleton] at hxa
  exact ha (hxa ▸ hx)

/-- Discovery invariant: emitted instance paths are duplicate-free and
every emitted path has been marked in `seenWorktrees`. -/
def DiscInv (st : DiscoverState) : Prop :=
  (st.instances.map ContainerInstance.Path).Nodup ∧
  ∀ i ∈ st.instances, i.Path ∈ st.seenWorktrees

/-- Emitting one instance whose path is unseen preserves the discovery
invariant (for any update of the `seenProjects` set). -/
theorem discInv_emit (st : DiscoverState) (inst : ContainerInstance)
    (sp : List String) (hinv : DiscInv st)
    (hnot : inst.Path ∉ st.seenWorktrees) :
    DiscInv { instances := st.instances ++ [inst], seenProjects := sp
            , seenWorktrees := inst.Path :: st.seenWorktrees } := by
  constructor
  · rw [List.map_append]
    apply nodup_append_single _ _ hinv.1
    intro hmem
    rcases List.mem_map.mp hmem with ⟨i, hi, hip⟩
    exact hnot (hip ▸ hinv.2 i hi)
  · intro i hi
    rcases List.mem_append.mp hi with hold | hnew
    · exact List.mem_cons_of_mem _ (hinv.2 i hold)
    · rw [List.mem_singleton] at hnew
      subst hnew
      exact List.mem_cons_self _ _

/-- The per-worktree loop body preserves the discovery invariant. -/
theorem discInv_worktreeStep (mainRepo cfg : String) (s : DiscoverState)
    (wt : WorktreeInfo) (h : DiscInv s) :
    DiscInv (discoverWorktreeStep mainRepo cfg s wt) := by
  unfold discoverWorktreeStep
  by_cases hmem : wt.Path ∈ s.seenWorktrees
  · simpa [hmem] using h
  · simp only [hmem, if_neg, if_false]
    exact discInv_emit s _ s.seenProjects h hmem

/-- The per-worktree loop preserves the discovery invariant. -/
theorem discInv_worktreeFold (mainRepo cfg : String)
    (wts : List WorktreeInfo) (s : DiscoverState) (h : DiscInv s) :
    DiscInv (wts.foldl (discoverWorktreeStep mainRepo cfg) s) := by
  induction wts generalizing s with
  | nil => exact h
  | cons hd tl ih =>
    exact ih _ (discInv_worktreeStep mainRepo cfg s hd h)

/-- Each discovery callback preserves the invariant. -/
theorem discInv_step (fs : GitFS) (st : DiscoverState)
    (pr : String × String) (h : DiscInv st) :
    DiscInv (discoverStep fs st pr) := by
  cases hwt : IsGitWorktree fs pr.2 with
  | none =>
    unfold discoverStep
    rw [hwt]
    by_cases hmem : pr.2 ∈ st.seenWorktrees
    · simpa [hmem] using h
    · simp only [hmem, if_neg, if_false]
      exact discInv_emit st _ st.seenProjects h hmem
  | some wtInfo =>
    unfold discoverStep
    rw [hwt]
    by_cases hproj : wtInfo.MainRepo ∈ st.seenProjects
    · simpa [hproj] using h
    · simp only [hproj, if_neg, if_false]
      cases hlist : ListWorktrees fs wtInfo.MainRepo with
      | error e =>
        by_cases hmem : pr.2 ∈ st.seenWorktrees
        · simpa [hmem] using h
        · simp only [hmem, if_neg, if_false]
          exact discInv_emit st _ (wtInfo.MainRepo :: st.seenProjects)
            h hmem
      | ok worktrees =>
        have h1 : DiscInv { st with
            seenProjects := wtInfo.MainRepo :: st.seenProjects } := h
        exact discInv_worktreeFold _ _ worktrees _ h1

/-- C6: for every abstracted walk result (hence every search-path
list, depth bound and exclusion set, including overlapping roots or a
repeated root), the discovered instance list never contains two
elements with the same path. -/
theorem c6_discover_nodup_paths (fs : GitFS)
    (found : List (String × String)) :
    ((DiscoverInstances fs found).map ContainerInstance.Path).Nodup := by
  have hinit : DiscInv
      { instances := [], seenProjects := [], seenWorktrees := [] } :=
    ⟨List.nodup_nil, by intro i hi; cases hi⟩
  have hfold : ∀ (l : List (String × String)) (st : DiscoverState),
      DiscInv st → DiscInv (l.foldl (discoverStep fs) st) := by
    intro l
    induction l with
    | nil => intro st h; exact h
    | cons hd tl ih =>
      intro st h
      exact ih _ (discInv_step fs st hd h)
  exact (hfold found _ hinit).1

/-! ### Worktree coverage (C7) -/

/-- Coverage invariant for the per-worktree loop: every path marked
seen is backed by an emitted instance sharing the loop's config path. -/
def WtCovered (cfg : String) (s : DiscoverState) : Prop :=
  ∀ q ∈ s.seenWorktrees,
    ∃ inst ∈ s.instances, inst.Path = q ∧ inst.ConfigPath = cfg

/-- The per-worktree loop only appends instances. -/
theorem worktreeFold_instances_mono (mainRepo cfg : String)
    (wts : List WorktreeInfo) (s : DiscoverState)
    (inst : ContainerInstance) (h : inst ∈ s.instances) :
    inst ∈ (wts.foldl (discoverWorktreeStep mainRepo cfg) s).instances := by
  induction wts generalizing s with
  | nil => exact h
  | cons hd tl ih =>
    apply ih
    unfold discoverWorktreeStep
    by_cases hmem : hd.Path ∈ s.seenWorktrees
    · simpa [hmem] using h
    · simp only [hmem, if_neg, if_false]
      exact List.mem_append_left _ h

/-- The per-worktree loop body preserves coverage. -/
theorem wtCovered_step (mainRepo cfg : String) (s : DiscoverState)
    (wt : WorktreeInfo) (h : WtCovered cfg s) :
    WtCovered cfg (discoverWorktreeStep mainRepo cfg s wt) := by
  unfold discoverWorktreeStep
  by_cases hmem : wt.Path ∈ s.seenWorktrees
  · simpa [hmem] using h
  · simp only [hmem, if_neg, if_false]
    intro q hq
    rcases List.mem_cons.mp hq with rfl | hq'
    · refine ⟨⟨⟨pathBase mainRepo, wt.Path⟩, cfg, some wt⟩, ?_, rfl, rfl⟩
      exact List.mem_append_right _ (List.mem_singleton_self _)
    · rcases h q hq' with ⟨inst, hi, hp, hc⟩
      exact ⟨inst, List.mem_append_left _ hi, hp, hc⟩

/-- Every worktree in the listed set ends up with an emitted instance
of the same path carrying the loop's config path. -/
theorem worktreeFold_covers (mainRepo cfg : String)
    (wts : List WorktreeInfo) (s : DiscoverState)
    (hcov : WtCovered cfg s) :
    ∀ w ∈ wts,
      ∃ inst ∈ (wts.foldl (discoverWorktreeStep mainRepo cfg) s).instances,
        inst.Path = w.Path ∧ inst.ConfigPath = cfg := by
  induction wts generalizing s with
  | nil => intro w hw; cases hw
  | cons hd tl ih =>
    intro w hw
    rcases List.mem_cons.mp hw with rfl | hw'
    · rw [List.foldl_cons]
      by_cases hmem : w.Path ∈ s.seenWorktrees
      · rcases hcov w.Path hmem with ⟨inst, hi, hp, hc⟩
        refine ⟨inst, ?_, hp, hc⟩
        apply worktreeFold_instances_mono
        unfold discoverWorktreeStep
        simp only [hmem, if_pos]
        exact hi
      · refine ⟨⟨⟨pathBase mainRepo, w.Path⟩, cfg, some w⟩, ?_, rfl, rfl⟩
        apply worktreeFold_instances_mono
        unfold discoverWorktreeStep
        simp only [hmem, if_neg, if_false]
        exact List.mem_append_right _ (List.mem_singleton_self _)
    · rw [List.foldl_cons]
      exact ih _ (wtCovered_step mainRepo cfg s hd hcov) w hw'

/-- C7: discovering from a walk that reached only the single project
path `p` — a worktree of main repository `wt.MainRepo` — still emits
one instance per listed worktree of that repository, each sharing the
main repository's container-config path (falling back to the walked
config path when the main repository has none). -/
theorem c7_discover_all_worktrees (fs : GitFS) (configPath p : String)
    (wt : WorktreeInfo) (wts : List WorktreeInfo)
    (hwt : IsGitWorktree fs p = some wt)
    (hlist : ListWorktrees fs wt.MainRepo = .ok wts) :
    ∀ w ∈ wts,
      ∃ inst ∈ DiscoverInstances fs [(configPath, p)],
        inst.Path = w.Path ∧
        inst.ConfigPath = mainConfigFor fs wt.MainRepo configPath := by
  intro w hw
  unfold DiscoverInstances
  rw [List.foldl_cons, List.foldl_nil]
  unfold discoverStep
  rw [hwt]
  simp only [List.not_mem_nil, if_neg, if_false]
  rw [hlist]
  exact worktreeFold_covers wt.MainRepo _ wts _
    (by intro q hq; cases hq) w hw

/-- C7 witness: the walk reaches only the linked worktree
`/work/app-f`, yet instances are emitted for both the main worktree
`/work/app` and `/work/app-f` itself, each carrying the main
repository's config path. -/
theorem c7_discover_all_worktrees_witness :
    (∃ inst ∈ DiscoverInstances fsWorkApp
      [("/work/app-f/.devcontainer/devcontainer.json", "/work/app-f")],
      inst.Path = "/work/app" ∧
      inst.ConfigPath = "/work/app/.devcontainer/devcontainer.json") ∧
    (∃ inst ∈ DiscoverInstances fsWorkApp
      [("/work/app-f/.devcontainer/devcontainer.json", "/work/app-f")],
      inst.Path = "/work/app-f" ∧
      inst.ConfigPath = "/work/app/.devcontainer/devcontainer.json") := by
  have h := c7_discover_all_worktrees fsWorkApp
    "/work/app-f/.devcontainer/devcontainer.json" "/work/app-f"
    wtAppF
    [newMainWorktreeInfo "/work/app" "main",
     newBranchWorktreeInfo "/work/app-f" "f" "/work/app"]
    rfl rfl
  have hm := h (newMainWorktreeInfo "/work/app" "main") (by decide)
  have hb := h (newBranchWorktreeInfo "/work/app-f" "f" "/work/app")
    (by decide)
  constructor
  · rcases hm with ⟨inst, hmem, hpath, hcfg⟩
    exact ⟨inst, hmem, hpath.trans rfl, hcfg.trans (by decide)⟩
  · rcases hb with ⟨inst, hmem, hpath, hcfg⟩
    exact ⟨inst, hmem, hpath.trans rfl, hcfg.trans (by decide)⟩

/-! ## Docker status polling

World model for the docker queries of `GetContainerStatus` and the
in-container `ListTmuxSessions`: `psRunning` and `psAll` are the raw
stdout of `docker ps -q` with the workspace-label filter (without and
with `-a`), `psExited` the raw stdout of the `status=exited` query,
and `listTmuxSessions` the session lines (or the error) produced by
`ListTmuxSessions`. -/

/-- World of external effects for status polling. -/
structure DockerWorld where
  psRunning : String → Except String String
  psAll : String → Except String String
  psExited : String → Except String String
  listTmuxSessions : String → Except String (List String)

/-- `devcontainer.findContainerByPath`: trimmed `docker ps` output, or
a wrapped error. -/
def findContainerByPath (w : DockerWorld) (projectPath : String)
    (runningOnly : Bool) : Except String String :=
  match (if runningOnly then w.psRunning projectPath
         else w.psAll projectPath) with
  | .error e => .error ("failed to find container: " ++ e)
  | .ok output => .ok (strTrim output)

/-- `devcontainer.GetContainerStatus`: running if the running-only
query returns an id, else stopped if the exited query returns one,
else unknown; any query error yields unknown. -/
def GetContainerStatus (w : DockerWorld) (projectPath : String) :
    ContainerStatus × String :=
  match findContainerByPath w projectPath true with
  | .error _ => (StatusUnknown, "")
  | .ok containerID =>
    if containerID ≠ "" then (StatusRunning, containerID)
    else
      match w.psExited projectPath with
      | .error _ => (StatusUnknown, "")
      | .ok output =>
        if strTrim output ≠ "" then (StatusStopped, strTrim output)
        else (StatusUnknown, "")

/-- The body of one status-poll goroutine: probe the container status
and, only when running, count sessions — a listing failure counts as
zero sessions, not a poll failure. -/
def probeInstance (w : DockerWorld) (inst : ContainerInstance) :
    ContainerInstanceWithStatus :=
  { ContainerInstance := inst
  , Status := (GetContainerStatus w inst.Path).1
  , ContainerID := (GetContainerStatus w inst.Path).2
  , SessionCount :=
      if (GetContainerStatus w inst.Path).1 = StatusRunning then
        match w.listTmuxSessions inst.Path with
        | .ok sessions => sessions.length
        | .error _ => 0
      else 0 }

/-- The Go zero value filling the pre-sized result slice. -/
def zeroWithStatus : ContainerInstanceWithStatus :=
  { ContainerInstance :=
      { Project := { Name := "", Path := "" }, ConfigPath := ""
      , Worktree := none }
  , Status := "", ContainerID := "", SessionCount := 0 }

/-- `devcontainer.GetAllInstancesStatus`: each goroutine writes its
probe result into its own pre-sized slot; the `order` list is the
completion order of the goroutines (each writes once, the `WaitGroup`
join corresponds to folding the whole order before the result is
read). -/
def GetAllInstancesStatus (w : DockerWorld)
    (instances : List ContainerInstance) (order : List Nat) :
    List ContainerInstanceWithStatus :=
  order.foldl
    (fun acc idx =>
      acc.set idx (probeInstance w (instances.getD idx zeroWithStatus.ContainerInstance)))
    (List.replicate instances.length zeroWithStatus)

/-! ### Disjoint-index write lemmas -/

/-- Index-addressed writes preserve the slice length. -/
theorem foldl_set_length {α : Type} (f : Nat → α) (order : List Nat)
    (acc : List α) :
    (order.foldl (fun a idx => a.set idx (f idx)) acc).length =
      acc.length := by
  induction order generalizing acc with
  | nil => rfl
  | cons j rest ih =>
    rw [List.foldl_cons, ih, List.length_set]

/-- A slot whose index never occurs in the write order is untouched. -/
theorem foldl_set_not_mem {α : Type} (f : Nat → α) (order : List Nat)
    (acc : List α) (i : Nat) (d : α) (h : i ∉ order) :
    (order.foldl (fun a idx => a.set idx (f idx)) acc).getD i d =
      acc.getD i d := by
  induction order generalizing acc with
  | nil => rfl
  | cons j rest ih =>
    rw [List.foldl_cons, ih _ (fun hmem => h (List.mem_cons_of_mem j hmem))]
    have hij : j ≠ i := fun hji => h (hji ▸ List.mem_cons_self j rest)
    simp [List.getD, List.getElem?_set_ne hij]

/-- A slot whose index occurs in the write order holds the value
written for that index — every write to a slot writes the same value,
so the completion order is irrelevant. -/
theorem foldl_set_mem {α : Type} (f : Nat → α) (order : List Nat)
    (acc : List α) (i : Nat) (d : α) (hmem : i ∈ order)
    (hlen : i < acc.length) :
    (order.foldl (fun a idx => a.set idx (f idx)) acc).getD i d = f i := by
  induction order generalizing acc with
  | nil => cases hmem
  | cons j rest ih =>
    rw [List.foldl_cons]
    by_cases hr : i ∈ rest
    · exact ih _ hr (by rw [List.length_set]; exact hlen)
    · have hij : i = j := by
        rcases List.mem_cons.mp hmem with h | h
        · exact h
        · exact absurd h hr
      subst hij
      rw [foldl_set_not_mem _ _ _ _ _ hr]
      simp [List.getD, List.getElem?_set_self, hlen]

/-! ### Claim theorem for the status poller -/

/-- Status characterization when both docker queries succeed. -/
theorem getContainerStatus_of_ok (w : DockerWorld) (p r s : String)
    (hr : w.psRunning p = .ok r) (hs : w.psExited p = .ok s) :
    (GetContainerStatus w p).1 =
      (if strTrim r ≠ "" then StatusRunning
       else if strTrim s ≠ "" then StatusStopped else StatusUnknown) := by
  unfold GetContainerStatus findContainerByPath
  rw [if_pos rfl, hr]
  by_cases h1 : strTrim r = ""
  · rw [hs]
    by_cases h2 : strTrim s = "" <;> simp [h1, h2]
  · simp [h1]

/-- A non-running probe reports zero sessions. -/
theorem probeInstance_not_running (w : DockerWorld)
    (inst : ContainerInstance)
    (h : (probeInstance w inst).Status ≠ StatusRunning) :
    (probeInstance w inst).SessionCount = 0 := by
  unfold probeInstance at h ⊢
  simp only at h ⊢
  rw [if_neg h]

/-- A failed session listing counts as zero sessions. -/
theorem probeInstance_session_error (w : DockerWorld)
    (inst : ContainerInstance) (e : String)
    (h : w.listTmuxSessions inst.Path = .error e) :
    (probeInstance w inst).SessionCount = 0 := by
  unfold probeInstance
  simp only
  by_cases hs : (GetContainerStatus w inst.Path).1 = StatusRunning
  · rw [if_pos hs, h]
  · rw [if_neg hs]

/-- C5: when every slot index occurs in the goroutine completion order
(the `WaitGroup` joins all writers), the poll result has exactly one
slot per input instance; slot `i` holds the probe of input `i`
whatever the completion order, extends that instance, carries zero
sessions unless running (a session-listing failure also counting as
zero), and — when both docker queries succeed — is running iff the
running query matched, else stopped iff the exited query matched, else
unknown. -/
theorem c5_status_poll (w : DockerWorld)
    (instances : List ContainerInstance) (order : List Nat)
    (horder : ∀ i, i < instances.length → i ∈ order) :
    (GetAllInstancesStatus w instances order).length = instances.length ∧
    ∀ i, i < instances.length →
      (GetAllInstancesStatus w instances order).getD i zeroWithStatus =
        probeInstance w (instances.getD i zeroWithStatus.ContainerInstance) ∧
      ((GetAllInstancesStatus w instances order).getD i
          zeroWithStatus).ContainerInstance =
        instances.getD i zeroWithStatus.ContainerInstance ∧
      (((GetAllInstancesStatus w instances order).getD i
          zeroWithStatus).Status ≠ StatusRunning →
        ((GetAllInstancesStatus w instances order).getD i
          zeroWithStatus).SessionCount = 0) ∧
      (∀ e, w.listTmuxSessions
          (instances.getD i zeroWithStatus.ContainerInstance).Path =
            .error e →
        ((GetAllInstancesStatus w instances order).getD i
          zeroWithStatus).SessionCount = 0) ∧
      (∀ r s,
        w.psRunning
          (instances.getD i zeroWithStatus.ContainerInstance).Path = .ok r →
        w.psExited
          (instances.getD i zeroWithStatus.ContainerInstance).Path = .ok s →
        ((GetAllInstancesStatus w instances order).getD i
          zeroWithStatus).Status =
          (if strTrim r ≠ "" then StatusRunning
           else if strTrim s ≠ "" then StatusStopped
           else StatusUnknown)) := by
  have hslot : ∀ i, i < instances.length →
      (GetAllInstancesStatus w instances order).getD i zeroWithStatus =
        probeInstance w
          (instances.getD i zeroWithStatus.ContainerInstance) := by
    intro i hi
    exact foldl_set_mem _ order _ i zeroWithStatus (horder i hi)
      (by rw [List.length_replicate]; exact hi)
  refine ⟨?_, ?_⟩
  · unfold GetAllInstancesStatus
    rw [foldl_set_length, List.length_replicate]
  · intro i hi
    rw [hslot i hi]
    refine ⟨rfl, rfl, ?_, ?_, ?_⟩
    · exact probeInstance_not_running w _
    · exact probeInstance_session_error w _
    · intro r s hr hs
      exact getContainerStatus_of_ok w _ r s hr hs

/-- A docker world with a running container for `/a` (whose session
listing fails), a stopped one for `/b`, and nothing for `/c`. -/
def dwThree : DockerWorld :=
  { psRunning := fun p => if p = "/a" then .ok "id1\n" else .ok ""
  , psAll := fun _ => .ok ""
  , psExited := fun p => if p = "/b" then .ok "id2\n" else .ok ""
  , listTmuxSessions := fun p =>
      if p = "/a" then .error "listing failed" else .ok [] }

/-- A bare instance at path `p` for poll witnesses. -/
def bareInstance (p : String) : ContainerInstance :=
  { Project := { Name := pathBase p, Path := p }, ConfigPath := ""
  , Worktree := none }

/-- C5 witness: polling three instances with completion order
`[0, 2, 1]` (slot 1 written last) still yields three elements with
slot 1 holding instance 1's probe. -/
theorem c5_status_poll_witness :
    (GetAllInstancesStatus dwThree
      [bareInstance "/a", bareInstance "/b", bareInstance "/c"]
      [0, 2, 1]).length = 3 ∧
    (GetAllInstancesStatus dwThree
      [bareInstance "/a", bareInstance "/b", bareInstance "/c"]
      [0, 2, 1]).getD 1 zeroWithStatus =
      probeInstance dwThree (bareInstance "/b") := by
  have h := c5_status_poll dwThree
    [bareInstance "/a", bareInstance "/b", bareInstance "/c"]
    [0, 2, 1] (by decide)
  exact ⟨h.1, (h.2 1 (by decide)).1⟩

/-! ## internal/tmux -/

/-- `tmux.Session`. -/
structure Session where
  Name : String
  Attached : Int
deriving DecidableEq, Repr

/-- Numeric value of a digit run. -/
def digitsVal (ds : List Char) : Int :=
  ds.foldl (fun acc d => 10 * acc + (d.toNat - '0'.toNat : Int)) 0

/-- Model of `strconv.Atoi` on in-range inputs: optional sign followed
by at least one digit; anything else errors. -/
def atoi (s : String) : Option Int :=
  match s.toList with
  | [] => none
  | '-' :: ds =>
    if ds ≠ [] ∧ ds.all Char.isDigit then some (-(digitsVal ds)) else none
  | '+' :: ds =>
    if ds ≠ [] ∧ ds.all Char.isDigit then some (digitsVal ds) else none
  | ds => if ds.all Char.isDigit then some (digitsVal ds) else none

/-- Model of `strings.SplitN(s, ":", 2)`: the part before the first
colon, and (when a colon exists) everything after it. -/
def splitN2Colon (l : List Char) : List (List Char) :=
  if (l.takeWhile (· ≠ ':')).length = l.length then [l]
  else [l.takeWhile (· ≠ ':'), (l.dropWhile (· ≠ ':')).drop 1]

/-- `tmux.ParseSessions`: one `name:attachedCount` record per line;
blank and colon-free lines are skipped, a malformed count parses as
zero attached clients. -/
def ParseSessions (output : List String) : List Session :=
  output.foldl
    (fun sessions line =>
      let l := strTrim line
      if l = "" then sessions
      else
        let parts := splitN2Colon l.toList
        if parts.length < 2 then sessions
        else
          let attached :=
            match atoi (String.mk (parts.getD 1 [])) with
            | some n => n
            | none => 0
          sessions ++ [{ Name := String.mk (parts.getD 0 [])
                       , Attached := attached }])
    []

/-! ## internal/tui: the state machine core

`State` from the current state enum; the model keeps the fields the
embedded `Update` branches read or write (`inputValue` stands for
`textInput.Value()`; the spinner, the text-input widgets' internals,
the config and the theme flag are rendering-side state no transition
depends on).  `tea.Cmd` values (the dispatched tasks) are side effects
outside the state transition itself and are not modelled.  The three
helpers living outside `model.go`/`handlers.go` — the per-state key
handlers, `handleContainerStarted` and `attachToSession` — enter as
the `TuiHooks` parameter, so every theorem below holds for all of
them. -/

/-- `github.Issue` (labels reduced to their names). -/
structure Issue where
  Number : Int
  Title : String
  State : String
  URL : String
  Body : String
  Labels : List String
deriving DecidableEq, Repr

/-- `tui.State`. -/
inductive TuiState where
  | discovering
  | refreshingStatus
  | dashboard
  | containerStarting
  | confirmStop
  | confirmRestart
  | containerStopping
  | containerRestarting
  | tmuxSelect
  | newSessionInput
  | attaching
  | confirmTmuxStop
  | confirmTmuxRestart
  | tmuxStopping
  | tmuxRestarting
  | loadingTmuxSessions
  | error
  | showConfig
  | newWorktreeInput
  | creatingWorktree
  | confirmDeleteWorktree
  | deletingWorktree
  | githubIssuesLoading
  | githubIssuesList
  | githubIssueDetailLoading
  | githubIssueDetail
  | githubWorktreeCreating
  | wizardWelcome
  | wizardSearchPaths
  | wizardCredentials
  | wizardSettings
  | wizardSummary
  | wizardSaving
deriving DecidableEq, Repr

/-- `tui.Model` (the fields the embedded transitions touch). -/
structure TuiModel where
  state : TuiState
  instances : List ContainerInstance
  instancesStatus : List ContainerInstanceWithStatus
  selectedInstance : Option ContainerInstance
  tmuxSessions : List Session
  selectedSession : Option Session
  cursor : Nat
  inputValue : String
  err : Option String
  errHint : String
  width : Int
  height : Int
  previousState : TuiState
  warning : String
  githubIssues : List Issue
  selectedIssue : Option Issue
  githubRepoOwner : String
  githubRepoName : String
  pendingAutoStart : Bool
  autoStartWorktreePath : String
deriving DecidableEq, Repr

/-- Promoted path of a status row. -/
def ContainerInstanceWithStatus.Path (c : ContainerInstanceWithStatus) :
    String := c.ContainerInstance.Path

/-- The messages of `model.go`'s `Update` switch (`key` carries
`msg.String()`; error messages carry the Go `error`, `none` being
nil). -/
inductive TuiMsg where
  | key (k : String)
  | windowSize (w h : Int)
  | spinnerTick
  | instancesDiscovered (instances : List ContainerInstance)
  | instanceStatusRefreshed (statuses : List ContainerInstanceWithStatus)
  | tmuxDetached
  | containerStarted (authWarning : String)
  | containerError (e : Option String)
  | tmuxSessionsLoaded (sessions : List String)
  | tmuxSessionCreated
  | containerStopped
  | containerRestarted
  | tmuxSessionStopped
  | tmuxSessionRestarted
  | worktreeCreated (pushWarning : String)
  | worktreeDeleted
  | githubIssuesLoaded (issues : List Issue) (owner repo : String)
  | githubIssuesError (e : Option String)
  | githubIssueDetailLoaded (body : String)
  | githubWorktreeCreated (worktreePath pushWarning labelWarning : String)

/-- The handlers defined outside `model.go`/`handlers.go`: the
per-state key handlers (`handleDashboardKey`, the confirm/select/input
and github handlers), `handleContainerStarted` (container.go) and
`attachToSession` (tmux.go). -/
structure TuiHooks where
  stateKey : TuiState → TuiModel → String → TuiModel
  handleContainerStarted : TuiModel → TuiModel
  attachToSession : TuiModel → String → TuiModel

/-- `handleKeyPress`: the error view clears the error and returns to
the dashboard on any key; the config view pops to the previous state;
the interactive states route to their handlers; every other state
(busy and wizard states) falls through unchanged. -/
def handleKeyPress (hooks : TuiHooks) (m : TuiModel) (k : String) :
    TuiModel :=
  match m.state with
  | .error => { m with state := .dashboard, err := none }
  | .showConfig => { m with state := m.previousState }
  | .dashboard => hooks.stateKey .dashboard m k
  | .confirmStop => hooks.stateKey .confirmStop m k
  | .confirmRestart => hooks.stateKey .confirmRestart m k
  | .confirmDeleteWorktree => hooks.stateKey .confirmDeleteWorktree m k
  | .confirmTmuxStop => hooks.stateKey .confirmTmuxStop m k
  | .confirmTmuxRestart => hooks.stateKey .confirmTmuxRestart m k
  | .tmuxSelect => hooks.stateKey .tmuxSelect m k
  | .newSessionInput => hooks.stateKey .newSessionInput m k
  | .newWorktreeInput => hooks.stateKey .newWorktreeInput m k
  | .githubIssuesList => hooks.stateKey .githubIssuesList m k
  | .githubIssueDetail => hooks.stateKey .githubIssueDetail m k
  | _ => m

/-- The fixed recovery hint set whenever an error message arrives. -/
def recoveryHint : String := "Press any key to go back"

/-- `Update`: the `tea.Msg` type switch of `model.go`.  Every message
is applied to whatever the current state is — there is no guard on
`m.state` outside the key handling. -/
def Update (hooks : TuiHooks) (m : TuiModel) (msg : TuiMsg) : TuiModel :=
  match msg with
  | .key k => handleKeyPress hooks m k
  | .windowSize w h => { m with width := w, height := h }
  | .spinnerTick => m
  | .instancesDiscovered insts =>
    { m with instances := insts, state := .refreshingStatus, cursor := 0 }
  | .instanceStatusRefreshed statuses =>
    if m.pendingAutoStart ∧ m.autoStartWorktreePath ≠ "" then
      match statuses.findIdx?
          (fun st => st.Path = m.autoStartWorktreePath) with
      | some i =>
        { m with
          instancesStatus := statuses, pendingAutoStart := false,
          selectedInstance :=
            some ((statuses.getD i zeroWithStatus).ContainerInstance),
          cursor := i, autoStartWorktreePath := "",
          state := .containerStarting }
      | none =>
        { m with
          instancesStatus := statuses, pendingAutoStart := false,
          autoStartWorktreePath := "", state := .dashboard }
    else { m with instancesStatus := statuses, state := .dashboard }
  | .tmuxDetached =>
    { m with
      state := .refreshingStatus, selectedInstance := none,
      cursor := 0 }
  | .containerStarted authWarning =>
    hooks.handleContainerStarted { m with warning := authWarning }
  | .containerError e =>
    { m with state := .error, err := e, errHint := recoveryHint }
  | .tmuxSessionsLoaded sessions =>
    { m with
      tmuxSessions := ParseSessions sessions,
      state := .tmuxSelect, cursor := 0 }
  | .tmuxSessionCreated => hooks.attachToSession m m.inputValue
  | .containerStopped =>
    { m with state := .refreshingStatus, selectedInstance := none }
  | .containerRestarted =>
    { m with state := .refreshingStatus, selectedInstance := none }
  | .tmuxSessionStopped =>
    { m with
      selectedSession := none, cursor := 0,
      state := .loadingTmuxSessions }
  | .tmuxSessionRestarted =>
    { m with
      selectedSession := none, cursor := 0,
      state := .loadingTmuxSessions }
  | .worktreeCreated pushWarning =>
    { m with warning := pushWarning, state := .discovering }
  | .worktreeDeleted =>
    { m with state := .discovering, selectedInstance := none }
  | .githubIssuesLoaded issues owner repo =>
    { m with
      githubIssues := issues, githubRepoOwner := owner,
      githubRepoName := repo, state := .githubIssuesList, cursor := 0 }
  | .githubIssuesError e =>
    { m with state := .error, err := e, errHint := recoveryHint }
  | .githubIssueDetailLoaded body =>
    { m with
      selectedIssue :=
        m.selectedIssue.map (fun iss => { iss with Body := body }),
      state := .githubIssueDetail }
  | .githubWorktreeCreated worktreePath pushWarning labelWarning =>
    let warnings :=
      (if pushWarning ≠ "" then [pushWarning] else []) ++
        (if labelWarning ≠ "" then [labelWarning] else [])
    { m with
      githubIssues := [], selectedIssue := none,
      warning :=
        if warnings.length > 0 then String.intercalate "; " warnings
        else m.warning,
      pendingAutoStart := true, autoStartWorktreePath := worktreePath,
      state := .discovering }

/-! ### Claim theorems for the state machine -/

/-- Hooks whose external handlers leave the model unchanged (the
concrete choice for closed statements). -/
def hooksId : TuiHooks :=
  { stateKey := fun _ m _ => m
  , handleContainerStarted := fun m => m
  , attachToSession := fun m _ => m }

/-- A zero model used as the base of concrete states. -/
def tuiZero : TuiModel :=
  { state := .dashboard, instances := [], instancesStatus := []
  , selectedInstance := none, tmuxSessions := [], selectedSession := none
  , cursor := 0, inputValue := "", err := none, errHint := ""
  , width := 0, height := 0, previousState := .dashboard, warning := ""
  , githubIssues := [], selectedIssue := none, githubRepoOwner := ""
  , githubRepoName := "", pendingAutoStart := false
  , autoStartWorktreePath := "" }

/-- C9 counterexample: a stale `tmuxSessionsLoadedMsg` delivered while
the error view is showing is still applied and moves the machine to
the session-list view — an exit from the error view that is not the
any-key-to-dashboard transition, refuting "the error view has no other
exit". -/
theorem c9_counterexample :
    (Update hooksId { tuiZero with state := .error, err := some "boom" }
        (.tmuxSessionsLoaded ["dev:1"])).state = .tmuxSelect ∧
    TuiState.tmuxSelect ≠ TuiState.dashboard ∧
    TuiState.tmuxSelect ≠ TuiState.error := by
  decide

/-- C9 (amended): a task-failure result (container, worktree, session
or issue-tracker error message — all delivered as the two error
messages) always makes the next state the error view carrying the
error and the fixed recovery hint, whatever the current state; and in
the error view every key event returns to the dashboard and clears the
error — the dashboard is the only exit reachable by a key event,
though a stale task-result message delivered in the error view is
still applied and can move the machine elsewhere. -/
theorem c9_error_view (hooks : TuiHooks) (m : TuiModel) :
    (∀ e, Update hooks m (.containerError e) =
      { m with state := .error, err := e, errHint := recoveryHint }) ∧
    (∀ e, Update hooks m (.githubIssuesError e) =
      { m with state := .error, err := e, errHint := recoveryHint }) ∧
    (∀ k, m.state = .error →
      (Update hooks m (.key k)).state = .dashboard ∧
      (Update hooks m (.key k)).err = none) := by
  refine ⟨fun e => rfl, fun e => rfl, ?_⟩
  intro k h
  simp [Update, handleKeyPress, h]

/-- C9 witness: a concrete container failure enters the error view
with the fixed hint, and a concrete key press leaves it for the
dashboard with the error cleared. -/
theorem c9_error_view_witness :
    Update hooksId tuiZero (.containerError (some "docker failed")) =
      { tuiZero with
        state := .error, err := some "docker failed",
        errHint := recoveryHint } ∧
    (Update hooksId
      { tuiZero with
        state := .error, err := some "docker failed" }
      (.key "q")).state = .dashboard ∧
    (Update hooksId
      { tuiZero with
        state := .error, err := some "docker failed" }
      (.key "q")).err = none := by
  refine ⟨(c9_error_view hooksId tuiZero).1 (some "docker failed"), ?_, ?_⟩
  · exact ((c9_error_view hooksId
      { tuiZero with
        state := .error, err := some "docker failed" }).2.2 "q" rfl).1
  · exact ((c9_error_view hooksId
      { tuiZero with
        state := .error, err := some "docker failed" }).2.2 "q" rfl).2

end QuickVibe
